import Mathlib

/-!
Verification of the interview-app core (interview_app.py): the question-list
parser, the evaluation-response parser, and the session state machine that
drives the question/answer loop.  Python strings are embedded as Lean
`String`/`List Char`; Python's `str.strip`, `str.lstrip`, `str.split` and
substring tests are implemented below at the character-list level with the
same semantics (whitespace restricted to the ASCII space/tab/CR/LF set that
`Char.isWhitespace` covers).  The external language-model call is opaque
text-in/text-out; a call that raises is embedded as `Except.error ()`, and
the propagation of an uncaught Python exception is made explicit in the
return types of the transition functions.
-/

namespace InterviewApp

/-- Python `str.lstrip()`: drop leading whitespace. -/
def lstripList (l : List Char) : List Char := l.dropWhile Char.isWhitespace

/-- Python-style right strip: drop trailing whitespace. -/
def rstripList (l : List Char) : List Char :=
  (l.reverse.dropWhile Char.isWhitespace).reverse

/-- Python `str.strip()`: drop leading and trailing whitespace. -/
def stripList (l : List Char) : List Char := rstripList (lstripList l)

/-- Fueled worker for Python `str.split(sep)` with a non-empty separator:
split on every non-overlapping occurrence of `sep`, scanning left to right,
keeping empty segments.  One unit of fuel is spent per character consumed,
so `l.length` fuel always suffices; the fuel makes the recursion structural. -/
def splitOnFuel (sep : List Char) : Nat → List Char → List Char → List (List Char)
  | _, [], acc => [acc.reverse]
  | 0, l, acc => [acc.reverse ++ l]
  | fuel + 1, c :: rest, acc =>
    if sep.isPrefixOf (c :: rest) then
      acc.reverse :: splitOnFuel sep fuel (rest.drop (sep.length - 1)) []
    else
      splitOnFuel sep fuel rest (c :: acc)

/-- Python `l.split(sep)` for a non-empty separator, on character lists. -/
def pySplitL (sep l : List Char) : List (List Char) := splitOnFuel sep l.length l []

/-- Python `s.split(sep)` on strings. -/
def pySplit (sep s : String) : List (List Char) := pySplitL sep.toList s.toList

/-- Python `sep in line` (substring containment, non-empty `sep`). -/
def containsTok (sep : List Char) : List Char → Bool
  | [] => false
  | c :: rest => sep.isPrefixOf (c :: rest) || containsTok sep rest

/-- Digit list to the natural number it denotes in base 10. -/
def digitsToNat (l : List Char) : Nat := l.foldl (fun a c => 10 * a + (c.toNat - 48)) 0

/-- Python `float(s)` restricted to plain decimal literals: an optional
sign, then digits with at most one decimal point and at least one digit
(`"8.5"`, `"7"`, `"-3."`, `".25"`).  Exponents, `inf`/`nan` and digit
underscores are outside the fragment the app's prompts ask for and are not
modelled; every input appearing in the analysed behaviours is plain decimal.
Returns `none` exactly when parsing raises `ValueError` on this fragment. -/
def parseDecimalList (l : List Char) : Option ℚ :=
  let signBody : ℤ × List Char :=
    match l with
    | '-' :: r => (-1, r)
    | '+' :: r => (1, r)
    | r => (1, r)
  let sgn := signBody.1
  let body := signBody.2
  match pySplitL ['.'] body with
  | [intPart] =>
    if intPart ≠ [] ∧ intPart.all Char.isDigit then
      some (mkRat (sgn * digitsToNat intPart) 1)
    else none
  | [intPart, fracPart] =>
    if (intPart ≠ [] ∨ fracPart ≠ []) ∧ intPart.all Char.isDigit ∧ fracPart.all Char.isDigit then
      some (mkRat (sgn * (digitsToNat intPart * 10 ^ fracPart.length + digitsToNat fracPart))
        (10 ^ fracPart.length))
    else none
  | _ => none

/-- The newline separator used by `questions_text.split("\n")`. -/
def nlTok : List Char := ['\n']

/-- The `"Score:"` marker searched for in evaluation output. -/
def scoreTok : List Char := "Score:".toList

/-- The `"Comment:"` marker searched for in evaluation output. -/
def commentTok : List Char := "Comment:".toList

/-- Filter condition of the question list comprehension
(`q.strip() and q.lstrip()[0].isdigit()`): the stripped line is non-empty
and the first character after left-stripping is a digit.  The `headD`
default is only reached when the first conjunct already failed. -/
def keepQuestionLine (q : List Char) : Bool :=
  !(stripList q).isEmpty && ((lstripList q).headD ' ').isDigit

/-- The question parser (interview_app.py lines 70–73):
`[q.strip() for q in questions_text.split("\n") if q.strip() and q.lstrip()[0].isdigit()]`. -/
def parseQuestions (text : String) : List String :=
  ((pySplit "\n" text).filter keepQuestionLine).map (fun q => String.mk (stripList q))

/-- One evaluation record `{"score": ..., "comment": ...}`. -/
structure Evaluation where
  score : ℚ
  comment : String
deriving DecidableEq, Repr

/-- Python `line.split(sep)[1]`: the segment between the first and second
occurrence of `sep` (to the end of the line when `sep` occurs once).  Only
used on lines already known to contain `sep`, so index 1 exists. -/
def segmentAfter (sep line : List Char) : List Char := (pySplitL sep line).getD 1 []

/-- The evaluation parser (interview_app.py lines 102–109): pick the first
line containing `"Score:"`, take `line.split("Score:")[1].strip()` and parse
it as a float, with any failure (no such line, or `float` raising) caught by
the `try/except` and defaulted to 0; independently pick the first line
containing `"Comment:"` and take `line.split("Comment:")[1].strip()`,
defaulting to `""` when no line matches. -/
def parseEvaluation (t : String) : Evaluation :=
  let lines := pySplit "\n" t
  let score : ℚ :=
    match lines.filter (containsTok scoreTok) with
    | [] => 0
    | line :: _ =>
      match parseDecimalList (stripList (segmentAfter scoreTok line)) with
      | some q => q
      | none => 0
  let comment : String :=
    match lines.filter (containsTok commentTok) with
    | [] => ""
    | line :: _ => String.mk (stripList (segmentAfter commentTok line))
  ⟨score, comment⟩

/-! ### Session state machine

`st.session_state` holds four fields: `questions`, `answers`, `evaluations`
and `current_q`.  The three transitions of the controller are the
Start-Interview block (lines 57–74), the Submit-Answer handler (lines
93–118) and the Exit-Interview button (lines 76–83); the Save button
(lines 133–145) reads the state but never writes it.  The language-model
chains are opaque: a successful `invoke` is `Except.ok text`, a raising one
is `Except.error ()`, and an exception that the Python code does not catch
is surfaced as a `some ()` error component in the transition's result. -/

/-- The per-user session state kept in `st.session_state`. -/
structure Session where
  questions : List String
  answers : List String
  evaluations : List Evaluation
  current_q : Nat
deriving DecidableEq, Repr

/-- The state just after the reset assignments (lines 58–61 and 79–82):
all sequences empty and the index 0. -/
def resetSession : Session := ⟨[], [], [], 0⟩

/-- Abstract state labels of the controller (spec §4.3).  The label is read
off the UI branch on `q_index < len(questions)` (line 89): `AWAITING_ANSWER i`
when the i-th question is being shown, `COMPLETED` otherwise.  `NOT_STARTED`
exists only before the first script run; line 57 auto-starts the interview
on first load, so `sessionState` never returns it. -/
inductive SessState where
  | notStarted : SessState
  | awaiting : Nat → SessState
  | completed : SessState
deriving DecidableEq, Repr

/-- The state label of a session (branch condition of line 89). -/
def sessionState (s : Session) : SessState :=
  if s.current_q < s.questions.length then SessState.awaiting s.current_q
  else SessState.completed

/-- The Start-Interview block (lines 57–74): reset every field, then invoke
the question chain and store the parsed questions.  The reset happens before
the call, so when the call raises (`Except.error`) the session is left as
`resetSession` and the exception propagates (second component `some ()`). -/
def startInterview (s : Session) (gen : Except Unit String) : Session × Option Unit :=
  match s, gen with
  | _, Except.error e => (resetSession, some e)
  | _, Except.ok text => ({ resetSession with questions := parseQuestions text }, none)

/-- Result of one click of the Submit-Answer button: the new session, whether
the `st.warning` validation message was shown, and whether an uncaught
exception escaped from the evaluation chain. -/
structure SubmitResult where
  session : Session
  warned : Bool
  err : Option Unit
deriving DecidableEq, Repr

/-- The Submit-Answer handler (lines 93–118).  The button only exists in the
`q_index < len(questions)` branch (line 89), so outside it the click is a
no-op.  With a question pending: if the answer strips to empty, only the
warning is shown (line 118); otherwise the evaluation chain is invoked on
`(questions[q_index], answer)`, its output parsed, and the answer and
evaluation are appended while `current_q` is incremented (lines 112–114).
A raising chain call is not caught by the code (the `try` starts only at the
parsing, line 102), so it leaves the state unchanged and escapes. -/
def submitAnswer (s : Session) (answer : String)
    (evalCall : String → String → Except Unit String) : SubmitResult :=
  if s.current_q < s.questions.length then
    if stripList answer.toList ≠ [] then
      match evalCall (s.questions.getD s.current_q "") answer with
      | Except.error e => ⟨s, false, some e⟩
      | Except.ok txt =>
        ⟨⟨s.questions, s.answers ++ [answer], s.evaluations ++ [parseEvaluation txt],
          s.current_q + 1⟩, false, none⟩
    else ⟨s, true, none⟩
  else ⟨s, false, none⟩

/-- The Exit-Interview button (lines 76–83): shown only while `questions` is
non-empty; clicking it resets every field. -/
def exitInterview (s : Session) : Session :=
  if s.questions ≠ [] then resetSession else s

/-- A run of successful Submit-Answer clicks: each list entry is the typed
answer together with the text the evaluation chain returns for it. -/
def runSubmits (s : Session) : List (String × String) → Session
  | [] => s
  | (a, t) :: rest =>
    runSubmits (submitAnswer s a (fun _ _ => Except.ok t)).session rest

/-- The structured document written by the Save button (lines 135–141):
exactly the five top-level keys `field`, `tone`, `questions`, `answers`,
`evaluations`. -/
structure SaveDoc where
  field : String
  tone : String
  questions : List String
  answers : List String
  evaluations : List Evaluation
deriving DecidableEq, Repr

/-- Python `field.replace(' ', '_')`: for a one-character pattern, `replace`
is exactly a character map. -/
def underscoreSpaces (l : List Char) : List Char :=
  l.map (fun c => if c = ' ' then '_' else c)

/-- The file name `f"interview_{field.replace(' ','_')}.json"` (line 134). -/
def saveFilename (field : String) : String :=
  "interview_" ++ String.mk (underscoreSpaces field.toList) ++ ".json"

/-- The Save-Interview handler (lines 133–145): builds the document from the
current session and the sidebar `field`/`tone` values and computes the file
name; the session itself is not modified. -/
def saveInterview (field tone : String) (s : Session) : SaveDoc × String :=
  (⟨field, tone, s.questions, s.answers, s.evaluations⟩, saveFilename field)

/-- The session invariant (spec §3): both accumulated sequences march in
lock-step with the index, which never passes the question count. -/
def Session.invariant (s : Session) : Prop :=
  s.answers.length = s.current_q ∧ s.evaluations.length = s.current_q ∧
    s.current_q ≤ s.questions.length

instance (s : Session) : Decidable s.invariant := by
  unfold Session.invariant; infer_instance

/-- Modelled from the spec wording of the keep-condition (C2, §4.1): the
line is non-empty after trimming and its first non-whitespace character —
read off with `find?` — is a decimal digit.  Stated independently of the
code's `q.lstrip()[0]` so the two readings can be compared. -/
def specKeepLine (q : List Char) : Bool :=
  !(stripList q).isEmpty &&
    (match q.find? (fun c => !c.isWhitespace) with
     | some c => c.isDigit
     | none => false)

/-- Modelled from the spec wording of score/comment extraction (C3/C4,
§4.2): the remainder of the line after the FIRST occurrence of the marker
(`none` when the marker does not occur).  The spec says the line is split
on the first occurrence and the remainder parsed; the code instead takes
`line.split(tok)[1]`, the segment between the first and second occurrence.
This definition exists only to compare those two readings. -/
def specAfterFirstTok (sep : List Char) : List Char → Option (List Char)
  | [] => none
  | c :: rest =>
    if sep.isPrefixOf (c :: rest) then some ((c :: rest).drop sep.length)
    else specAfterFirstTok sep rest

/-! ### Helper lemmas -/

lemma find?_nonWs_eq_head?_lstrip (l : List Char) :
    l.find? (fun c => !c.isWhitespace) = (lstripList l).head? := by
  induction l with
  | nil => rfl
  | cons c t ih =>
    by_cases h : c.isWhitespace
    · simpa [lstripList, List.find?, List.dropWhile_cons, h] using ih
    · simp [lstripList, List.find?, List.dropWhile_cons, h]

lemma head?_dropWhile_false {α : Type} {p : α → Bool} {c : α} :
    ∀ {l : List α}, (l.dropWhile p).head? = some c → p c = false := by
  intro l
  induction l with
  | nil => intro h; simp [List.dropWhile] at h
  | cons a t ih =>
    intro h
    rw [List.dropWhile_cons] at h
    by_cases ha : p a
    · exact ih (by simpa [ha] using h)
    · have : a = c := by simpa [ha] using h
      subst this
      simpa using ha

lemma rstripList_prefix_self (m : List Char) : rstripList m <+: m := by
  have h : m.reverse.dropWhile Char.isWhitespace <:+ m.reverse :=
    List.dropWhile_suffix _
  have h2 : (rstripList m).reverse <:+ m.reverse := by
    simpa [rstripList] using h
  exact List.reverse_suffix.mp h2

lemma head?_eq_of_rstrip_ne_nil {m : List Char} (h : rstripList m ≠ []) :
    m.head? = (rstripList m).head? := by
  obtain ⟨t, ht⟩ := rstripList_prefix_self m
  conv_lhs => rw [← ht]
  exact List.head?_append_of_ne_nil _ h

lemma lstrip_ne_nil_of_strip_ne_nil {q : List Char} (h : stripList q ≠ []) :
    lstripList q ≠ [] := by
  intro hl
  apply h
  unfold stripList
  rw [hl]
  rfl

lemma lstrip_eq_self_of_head_not_ws {l : List Char}
    (h : ∀ c, l.head? = some c → c.isWhitespace = false) : lstripList l = l := by
  cases l with
  | nil => rfl
  | cons a t =>
    rw [lstripList, List.dropWhile_cons, if_neg]
    simp [h a rfl]

lemma rstrip_idem (m : List Char) : rstripList (rstripList m) = rstripList m := by
  simp [rstripList, List.reverse_reverse, List.dropWhile_idempotent]

lemma strip_idem (q : List Char) : stripList (stripList q) = stripList q := by
  by_cases h : rstripList (lstripList q) = []
  · unfold stripList
    rw [h]
    rfl
  · have hh : (lstripList q).head? = (rstripList (lstripList q)).head? :=
      head?_eq_of_rstrip_ne_nil h
    have hfix : lstripList (rstripList (lstripList q)) = rstripList (lstripList q) := by
      apply lstrip_eq_self_of_head_not_ws
      intro c hc
      apply head?_dropWhile_false (p := Char.isWhitespace) (l := q)
      rw [← lstripList] at *
      rw [hh]
      exact hc
    show rstripList (lstripList (rstripList (lstripList q))) = rstripList (lstripList q)
    rw [hfix, rstrip_idem]

lemma strip_head_eq_lstrip_head {q : List Char} (h : stripList q ≠ []) :
    (stripList q).head? = (lstripList q).head? := by
  exact (head?_eq_of_rstrip_ne_nil (m := lstripList q) h).symm

lemma keepQuestionLine_eq_specKeepLine (q : List Char) :
    keepQuestionLine q = specKeepLine q := by
  unfold keepQuestionLine specKeepLine
  rw [find?_nonWs_eq_head?_lstrip]
  by_cases h : (stripList q).isEmpty
  · simp [h]
  · have hs : stripList q ≠ [] := by simpa [List.isEmpty_iff] using h
    have hl : lstripList q ≠ [] := lstrip_ne_nil_of_strip_ne_nil hs
    cases hc : (lstripList q).head? with
    | none => exact absurd (by simpa using hc) hl
    | some c =>
      have : (lstripList q).headD ' ' = c := by
        simp [List.headD_eq_head?, hc]
      rw [this]

lemma filter_first_of_earlier_false {α : Type} (p : α → Bool) (t₁ : List α)
    (line : α) (t₂ : List α) (h1 : ∀ l ∈ t₁, p l = false) (h2 : p line = true) :
    (t₁ ++ line :: t₂).filter p = line :: t₂.filter p := by
  rw [List.filter_append]
  have hnil : t₁.filter p = [] :=
    List.filter_eq_nil_iff.mpr (by intro a ha; simp [h1 a ha])
  simp [hnil, List.filter_cons, h2]

lemma submitAnswer_advance {s : Session} {a : String} {t : String}
    (hq : s.current_q < s.questions.length) (ha : stripList a.toList ≠ []) :
    submitAnswer s a (fun _ _ => Except.ok t)
      = ⟨⟨s.questions, s.answers ++ [a], s.evaluations ++ [parseEvaluation t],
          s.current_q + 1⟩, false, none⟩ := by
  unfold submitAnswer
  rw [if_pos hq, if_pos ha]

lemma runSubmits_spec :
    ∀ (l : List (String × String)) (s : Session), s.invariant →
      (∀ p ∈ l, stripList p.1.toList ≠ []) →
      s.current_q + l.length ≤ s.questions.length →
      (runSubmits s l).questions = s.questions ∧
      (runSubmits s l).current_q = s.current_q + l.length ∧
      (runSubmits s l).invariant := by
  intro l
  induction l with
  | nil => intro s hinv _ _; exact ⟨rfl, by simp [runSubmits], hinv⟩
  | cons p rest ih =>
    intro s hinv hne hlen
    obtain ⟨a, t⟩ := p
    obtain ⟨hinv1, hinv2, _⟩ := hinv
    have hq : s.current_q < s.questions.length := by
      simp only [List.length_cons] at hlen; omega
    have ha : stripList a.toList ≠ [] := hne (a, t) (by simp)
    have hstep : runSubmits s ((a, t) :: rest)
        = runSubmits ⟨s.questions, s.answers ++ [a],
            s.evaluations ++ [parseEvaluation t], s.current_q + 1⟩ rest := by
      rw [runSubmits, submitAnswer_advance hq ha]
    rw [hstep]
    have hrec := ih ⟨s.questions, s.answers ++ [a],
        s.evaluations ++ [parseEvaluation t], s.current_q + 1⟩
      ⟨by simp [hinv1], by simp [hinv2], by simp only [List.length_cons] at hlen; simpa using (by omega : s.current_q + 1 ≤ s.questions.length)⟩
      (fun p hp => hne p (by simp [hp]))
      (by simp only [List.length_cons] at hlen ⊢; omega)
    refine ⟨hrec.1, ?_, hrec.2.2⟩
    rw [hrec.2.1]
    simp only [List.length_cons]
    omega

lemma toList_append (a b : String) : (a ++ b).toList = a.toList ++ b.toList := by
  cases a
  cases b
  rfl

/-! ### Claim theorems -/

/-- C1: Session invariant — `len(answers) = len(evaluations) = current_index`
and `current_index ≤ len(questions)` is established by Start (which resets
all three before storing the generated questions), preserved by Submit
(which appends to both sequences and increments the index together) and by
Exit (which resets everything); and after `n` successful Submit clicks from
`AWAITING_ANSWER(0)` with `n < len(questions)` the state is
`AWAITING_ANSWER(n)` with `len(answers) = len(evaluations) = n`. -/
theorem C1_session_invariant :
    (∀ (s : Session) (gen : Except Unit String),
      ((startInterview s gen).1).invariant) ∧
    (∀ (s : Session) (a : String) (f : String → String → Except Unit String),
      s.invariant → ((submitAnswer s a f).session).invariant) ∧
    (∀ s : Session, s.invariant → (exitInterview s).invariant) ∧
    (∀ (s : Session) (l : List (String × String)), s.invariant →
      s.current_q = 0 → (∀ p ∈ l, stripList p.1.toList ≠ []) →
      l.length < s.questions.length →
      sessionState (runSubmits s l) = SessState.awaiting l.length ∧
      (runSubmits s l).answers.length = l.length ∧
      (runSubmits s l).evaluations.length = l.length) := by
  refine ⟨?_, ?_, ?_, ?_⟩
  · intro s gen
    cases gen <;> simp [startInterview, resetSession, Session.invariant]
  · intro s a f hinv
    obtain ⟨h1, h2, h3⟩ := hinv
    unfold submitAnswer
    by_cases hq : s.current_q < s.questions.length
    · rw [if_pos hq]
      by_cases ha : stripList a.toList ≠ []
      · rw [if_pos ha]
        cases f (s.questions.getD s.current_q "") a with
        | error e => exact ⟨h1, h2, h3⟩
        | ok txt =>
          exact ⟨by simp [h1], by simp [h2], by simpa using hq⟩
      · rw [if_neg ha]
        exact ⟨h1, h2, h3⟩
    · rw [if_neg hq]
      exact ⟨h1, h2, h3⟩
  · intro s hinv
    unfold exitInterview
    by_cases h : s.questions ≠ []
    · rw [if_pos h]
      exact ⟨rfl, rfl, by simp [resetSession]⟩
    · rw [if_neg h]
      exact hinv
  · intro s l hinv hq0 hne hlen
    obtain ⟨hqs, hcq, hinv'⟩ := runSubmits_spec l s hinv hne (by omega)
    have hcq' : (runSubmits s l).current_q = l.length := by
      rw [hcq, hq0]
      omega
    have hlt : (runSubmits s l).current_q < (runSubmits s l).questions.length := by
      rw [hcq', hqs]
      exact hlen
    refine ⟨?_, ?_, ?_⟩
    · unfold sessionState
      rw [if_pos hlt, hcq']
    · rw [hinv'.1, hcq']
    · rw [hinv'.2.1, hcq']

/-- Witness for C1 at a concrete two-question session. -/
theorem C1_session_invariant_witness :
    ((startInterview ⟨["old"], ["a"], [⟨1, "c"⟩], 1⟩ (Except.ok "1. A\n2. B")).1).invariant ∧
    ((submitAnswer ⟨["Q1", "Q2"], [], [], 0⟩ "my answer"
        (fun _ _ => Except.ok "Score: 7\nComment: ok")).session).invariant ∧
    (exitInterview ⟨["Q1", "Q2"], [], [], 0⟩).invariant ∧
    sessionState (runSubmits ⟨["Q1", "Q2"], [], [], 0⟩ [("ans", "Score: 7\nComment: ok")])
      = SessState.awaiting 1 :=
  ⟨C1_session_invariant.1 _ _,
   C1_session_invariant.2.1 _ _ _ (by decide),
   C1_session_invariant.2.2.1 _ (by decide),
   (C1_session_invariant.2.2.2 _ [("ans", "Score: 7\nComment: ok")] (by decide) rfl
      (by decide) (by decide)).1⟩

/-- C6: Empty-answer guard — in any state `AWAITING_ANSWER(i)`, submitting
an answer whose trimmed text is empty performs no transition: the session is
returned unchanged, no evaluator call is made (the result is the same for
every evaluator function), no exception escapes, and the `st.warning`
validation message is shown, so the user may resubmit. -/
theorem C6_empty_answer_guard (s : Session) (i : Nat) (a : String)
    (f : String → String → Except Unit String)
    (hstate : sessionState s = SessState.awaiting i)
    (ha : stripList a.toList = []) :
    submitAnswer s a f = ⟨s, true, none⟩ := by
  have hq : s.current_q < s.questions.length := by
    unfold sessionState at hstate
    by_cases h : s.current_q < s.questions.length
    · exact h
    · rw [if_neg h] at hstate
      cases hstate
  unfold submitAnswer
  rw [if_pos hq, if_neg (not_not_intro ha)]

/-- Witness for C6: a blank answer on a fresh one-question session. -/
theorem C6_empty_answer_guard_witness :
    submitAnswer ⟨["Q1"], [], [], 0⟩ "   " (fun _ _ => Except.ok "Score: 9")
      = ⟨⟨["Q1"], [], [], 0⟩, true, none⟩ :=
  C6_empty_answer_guard _ 0 _ _ (by decide) (by decide)

/-- C7: Terminal property — once `current_index = len(questions)` the state
label is `COMPLETED`; a Submit click changes nothing (no warning, no error,
same session) so no operation other than Start or Exit changes the state;
`COMPLETED` persists across Submit clicks; and Exit leaves it only through
the reset path. -/
theorem C7_completed_terminal (s : Session)
    (h : s.current_q = s.questions.length) :
    sessionState s = SessState.completed ∧
    (∀ (a : String) (f : String → String → Except Unit String),
      submitAnswer s a f = ⟨s, false, none⟩) ∧
    (∀ (a : String) (f : String → String → Except Unit String),
      sessionState (submitAnswer s a f).session = SessState.completed) ∧
    (s.questions ≠ [] → exitInterview s = resetSession) := by
  have hnot : ¬ s.current_q < s.questions.length := by omega
  have hss : sessionState s = SessState.completed := by
    unfold sessionState
    rw [if_neg hnot]
  have hsub : ∀ (a : String) (f : String → String → Except Unit String),
      submitAnswer s a f = ⟨s, false, none⟩ := by
    intro a f
    unfold submitAnswer
    rw [if_neg hnot]
  refine ⟨hss, hsub, ?_, ?_⟩
  · intro a f
    rw [hsub a f]
    exact hss
  · intro hne
    unfold exitInterview
    rw [if_pos hne]

/-- Witness for C7 at a completed one-question session. -/
theorem C7_completed_terminal_witness :
    sessionState ⟨["Q"], ["a"], [⟨7, "ok"⟩], 1⟩ = SessState.completed ∧
    submitAnswer ⟨["Q"], ["a"], [⟨7, "ok"⟩], 1⟩ "late answer"
        (fun _ _ => Except.ok "Score: 1")
      = ⟨⟨["Q"], ["a"], [⟨7, "ok"⟩], 1⟩, false, none⟩ ∧
    exitInterview ⟨["Q"], ["a"], [⟨7, "ok"⟩], 1⟩ = resetSession :=
  ⟨(C7_completed_terminal _ (by decide)).1,
   (C7_completed_terminal _ (by decide)).2.1 _ _,
   (C7_completed_terminal _ (by decide)).2.2.2 (by decide)⟩

/-- C9: When the score and comment markers share one single line, as in
`"Score: 5 Comment: hi"`, the comment is extracted (`"hi"`) but the score
silently falls back to 0: the same line is both the first Score-line and
the first Comment-line, and the text between the markers is not a bare
number, so float parsing fails. -/
theorem C9_single_line_markers :
    parseEvaluation "Score: 5 Comment: hi" = ⟨0, "hi"⟩ ∧
    (pySplit "\n" "Score: 5 Comment: hi").filter (containsTok scoreTok)
      = (pySplit "\n" "Score: 5 Comment: hi").filter (containsTok commentTok) ∧
    parseDecimalList (stripList (segmentAfter scoreTok
      ("Score: 5 Comment: hi" : String).toList)) = none := by
  decide

/-- C10: Non-atomicity of Start — the reset of questions, answers,
evaluations and index happens before the model call, so whatever the call's
outcome the accumulated fields are already cleared, and when the call raises
the session is left exactly in the reset (empty) state regardless of the
previous session's content: nothing is restored, and the exception
propagates. -/
theorem C10_start_clears_before_call (s : Session) (gen : Except Unit String) :
    (startInterview s gen).1.answers = [] ∧
    (startInterview s gen).1.evaluations = [] ∧
    (startInterview s gen).1.current_q = 0 ∧
    startInterview s (Except.error ()) = (resetSession, some ()) := by
  cases gen <;> simp [startInterview, resetSession]

/-- C2 counterexample: the claim says retained lines are kept verbatim, but
the code stores `q.strip()`: on the single-line response
`"  1. What is X?  "` the retained element is the trimmed line, not the
original line, so verbatim retention fails. -/
theorem C2_counterexample :
    parseQuestions "  1. What is X?  " = ["1. What is X?"] ∧
    ("1. What is X?" : String) ≠ "  1. What is X?  " := by
  decide

/-- C2 (amended): the generator splits the response into lines and keeps a
line iff, after trimming, it is non-empty and its first non-whitespace
character is a decimal digit; the retained lines are kept in TRIMMED form
(leading/trailing whitespace removed, the leading "N." marker preserved)
and order-preserved; the result has at most as many elements as the
response has lines, and every returned element is non-empty and starts
with a digit after trimming. -/
theorem C2_question_parsing_amended (text : String) :
    parseQuestions text
      = ((pySplit "\n" text).filter specKeepLine).map (fun q => String.mk (stripList q)) ∧
    (parseQuestions text).length ≤ (pySplit "\n" text).length ∧
    (∀ s ∈ parseQuestions text,
      s ≠ "" ∧ ((stripList s.toList).headD ' ').isDigit = true) := by
  refine ⟨?_, ?_, ?_⟩
  · unfold parseQuestions
    rw [List.filter_congr (fun q _ => keepQuestionLine_eq_specKeepLine q)]
  · unfold parseQuestions
    rw [List.length_map]
    exact List.length_filter_le _ _
  · intro s hs
    unfold parseQuestions at hs
    obtain ⟨q, hq, hmk⟩ := List.mem_map.mp hs
    have hkeep : keepQuestionLine q = true := (List.mem_filter.mp hq).2
    unfold keepQuestionLine at hkeep
    have h1 : (stripList q).isEmpty = false := by
      cases h : (stripList q).isEmpty <;> simp [h] at hkeep ⊢
    have hne : stripList q ≠ [] := by
      simpa [List.isEmpty_iff] using h1
    have hdig : ((lstripList q).headD ' ').isDigit = true := by
      simpa [h1] using hkeep
    constructor
    · rw [← hmk]
      simp only [ne_eq, String.ext_iff]
      simpa using hne
    · rw [← hmk]
      have htl : (String.mk (stripList q)).toList = stripList q := rfl
      rw [htl, strip_idem, List.headD_eq_head?, strip_head_eq_lstrip_head hne,
        ← List.headD_eq_head?]
      exact hdig

/-- Witness for C2 on a three-line response with one non-question line. -/
theorem C2_question_parsing_amended_witness :
    (parseQuestions "1. A\nnope\n 2. B ").length
      ≤ (pySplit "\n" "1. A\nnope\n 2. B ").length ∧
    (("2. B" : String) ≠ "" ∧
      ((stripList ("2. B" : String).toList).headD ' ').isDigit = true) :=
  ⟨(C2_question_parsing_amended "1. A\nnope\n 2. B ").2.1,
   (C2_question_parsing_amended "1. A\nnope\n 2. B ").2.2 "2. B" (by decide)⟩

/-- C3 counterexample: on the line `"Score: 5Score:"` the code's
`split("Score:")[1]` yields `" 5"` and the score parses to 5, while the
claim's rule — split at the FIRST occurrence of `"Score:"` and parse the
trimmed remainder — faces the remainder `" 5Score:"`, whose trimmed form
fails float parsing and would force score 0; the two disagree. -/
theorem C3_counterexample :
    (parseEvaluation "Score: 5Score:").score = 5 ∧
    (specAfterFirstTok scoreTok ("Score: 5Score:" : String).toList).map
        (fun r => parseDecimalList (stripList r)) = some none ∧
    (5 : ℚ) ≠ 0 := by
  decide

/-- C3 (amended): `evaluate` scans lines in order and takes the score from
the first line containing `"Score:"`, splitting that line on ALL occurrences
of `"Score:"` and parsing, as a float, the trimmed segment between the
first and second occurrence (running to the end of the line when the marker
occurs once); if no such line exists or parsing fails, the score is 0; on
`"Score: 8.5\nComment: Good depth"` the score is 8.5. -/
theorem C3_score_extraction_amended :
    (parseEvaluation "Score: 8.5\nComment: Good depth").score = mkRat 17 2 ∧
    (∀ t : String, (∀ l ∈ pySplit "\n" t, containsTok scoreTok l = false) →
      (parseEvaluation t).score = 0) ∧
    (∀ (t : String) (t₁ : List (List Char)) (line : List Char)
        (t₂ : List (List Char)),
      pySplit "\n" t = t₁ ++ line :: t₂ →
      (∀ l ∈ t₁, containsTok scoreTok l = false) →
      containsTok scoreTok line = true →
      (parseEvaluation t).score
        = (parseDecimalList (stripList (segmentAfter scoreTok line))).getD 0) := by
  refine ⟨by decide, ?_, ?_⟩
  · intro t h
    have hf : (pySplit "\n" t).filter (containsTok scoreTok) = [] :=
      List.filter_eq_nil_iff.mpr (by intro a ha; simp [h a ha])
    simp [parseEvaluation, hf]
  · intro t t₁ line t₂ hdec h1 h2
    have hf : (pySplit "\n" t).filter (containsTok scoreTok)
        = line :: t₂.filter (containsTok scoreTok) := by
      rw [hdec]
      exact filter_first_of_earlier_false _ _ _ _ h1 h2
    simp only [parseEvaluation, hf]
    cases hp : parseDecimalList (stripList (segmentAfter scoreTok line)) <;>
      simp [hp]

/-- Witness for C3: a response whose second line is the first Score-line. -/
theorem C3_score_extraction_amended_witness :
    (parseEvaluation "preamble\nScore: 3\ntail").score
      = (parseDecimalList (stripList (segmentAfter scoreTok
          ("Score: 3" : String).toList))).getD 0 ∧
    (parseEvaluation "no markers here").score = 0 :=
  ⟨C3_score_extraction_amended.2.2 "preamble\nScore: 3\ntail"
      [("preamble" : String).toList] ("Score: 3" : String).toList
      [("tail" : String).toList] (by decide) (by decide) (by decide),
   C3_score_extraction_amended.2.1 "no markers here" (by decide)⟩

/-- C4 counterexample: on the line `"Comment: hiComment: yo"` the code's
`split("Comment:")[1]` yields `" hi"` so the comment is `"hi"`, while the
claim's rule — split at the FIRST occurrence and trim the remainder —
yields `"hiComment: yo"`; the two disagree. -/
theorem C4_counterexample :
    (parseEvaluation "Comment: hiComment: yo").comment = "hi" ∧
    (specAfterFirstTok commentTok ("Comment: hiComment: yo" : String).toList).map
        (fun r => String.mk (stripList r)) = some "hiComment: yo" ∧
    ("hi" : String) ≠ "hiComment: yo" := by
  decide

/-- C4 (amended): `evaluate` takes the comment from the first line
containing `"Comment:"`, splitting that line on ALL occurrences of
`"Comment:"` and trimming the segment between the first and second
occurrence (to the end of the line when the marker occurs once), defaulting
to `""` when no such line exists; the score and comment extractions are
independent — each depends only on the lines containing its own marker —
and order-independent per field, so `"Comment: nice\nScore: 7"` yields
score 7 and comment `"nice"`. -/
theorem C4_comment_extraction_amended :
    parseEvaluation "Comment: nice\nScore: 7" = ⟨7, "nice"⟩ ∧
    (∀ t : String, (∀ l ∈ pySplit "\n" t, containsTok commentTok l = false) →
      (parseEvaluation t).comment = "") ∧
    (∀ (t : String) (t₁ : List (List Char)) (line : List Char)
        (t₂ : List (List Char)),
      pySplit "\n" t = t₁ ++ line :: t₂ →
      (∀ l ∈ t₁, containsTok commentTok l = false) →
      containsTok commentTok line = true →
      (parseEvaluation t).comment
        = String.mk (stripList (segmentAfter commentTok line))) ∧
    (∀ t u : String,
      (pySplit "\n" t).filter (containsTok commentTok)
        = (pySplit "\n" u).filter (containsTok commentTok) →
      (parseEvaluation t).comment = (parseEvaluation u).comment) ∧
    (∀ t u : String,
      (pySplit "\n" t).filter (containsTok scoreTok)
        = (pySplit "\n" u).filter (containsTok scoreTok) →
      (parseEvaluation t).score = (parseEvaluation u).score) := by
  refine ⟨by decide, ?_, ?_, ?_, ?_⟩
  · intro t h
    have hf : (pySplit "\n" t).filter (containsTok commentTok) = [] :=
      List.filter_eq_nil_iff.mpr (by intro a ha; simp [h a ha])
    simp [parseEvaluation, hf]
  · intro t t₁ line t₂ hdec h1 h2
    have hf : (pySplit "\n" t).filter (containsTok commentTok)
        = line :: t₂.filter (containsTok commentTok) := by
      rw [hdec]
      exact filter_first_of_earlier_false _ _ _ _ h1 h2
    simp [parseEvaluation, hf]
  · intro t u h
    simp only [parseEvaluation, h]
  · intro t u h
    simp only [parseEvaluation, h]

/-- Witness for C4: a malformed score line does not disturb the comment. -/
theorem C4_comment_extraction_amended_witness :
    (parseEvaluation "Score: garbage\nComment: ok").comment
      = (parseEvaluation "Comment: ok").comment ∧
    (parseEvaluation "nothing at all").comment = "" ∧
    (parseEvaluation "first\nComment: deep").comment
      = String.mk (stripList (segmentAfter commentTok
          ("Comment: deep" : String).toList)) :=
  ⟨C4_comment_extraction_amended.2.2.2.1 "Score: garbage\nComment: ok"
      "Comment: ok" (by decide),
   C4_comment_extraction_amended.2.1 "nothing at all" (by decide),
   C4_comment_extraction_amended.2.2.1 "first\nComment: deep"
      [("first" : String).toList] ("Comment: deep" : String).toList []
      (by decide) (by decide) (by decide)⟩

/-- C5 counterexample: the claim says no error is raised to the caller, but
neither chain invocation sits inside a `try`: a raising generation call
propagates out of Start, and a raising evaluation call propagates out of
the Submit handler with nothing appended. -/
theorem C5_counterexample :
    (startInterview ⟨["old"], ["oa"], [⟨1, "c"⟩], 1⟩ (Except.error ())).2 = some () ∧
    (submitAnswer ⟨["Q"], [], [], 0⟩ "ans" (fun _ _ => Except.error ())).err = some () ∧
    (submitAnswer ⟨["Q"], [], [], 0⟩ "ans" (fun _ _ => Except.error ())).session
      = ⟨["Q"], [], [], 0⟩ := by
  decide

/-- C5 (amended): parse failures are contained — a generation response with
no digit-led lines yields the empty question list and the completed state
with no exception, and an evaluation response with no marker lines degrades
to score 0 and comment `""` — but a model call that RAISES is not caught:
the generation exception escapes Start (leaving the freshly reset state)
and the evaluation exception escapes the Submit handler (leaving the
session unchanged). -/
theorem C5_error_containment_amended :
    (∀ (s : Session) (t : String),
      (∀ l ∈ pySplit "\n" t, keepQuestionLine l = false) →
      (startInterview s (Except.ok t)).1.questions = [] ∧
      sessionState (startInterview s (Except.ok t)).1 = SessState.completed ∧
      (startInterview s (Except.ok t)).2 = none) ∧
    (∀ s : Session, (startInterview s (Except.error ())).2 = some ()) ∧
    (∀ (s : Session) (a : String) (f : String → String → Except Unit String),
      s.current_q < s.questions.length → stripList a.toList ≠ [] →
      f (s.questions.getD s.current_q "") a = Except.error () →
      submitAnswer s a f = ⟨s, false, some ()⟩) ∧
    (∀ t : String,
      (∀ l ∈ pySplit "\n" t,
        containsTok scoreTok l = false ∧ containsTok commentTok l = false) →
      parseEvaluation t = ⟨0, ""⟩) := by
  refine ⟨?_, ?_, ?_, ?_⟩
  · intro s t h
    have hq : parseQuestions t = [] := by
      unfold parseQuestions
      rw [List.filter_eq_nil_iff.mpr (by intro a ha; simp [h a ha])]
      rfl
    refine ⟨?_, ?_, rfl⟩ <;>
      simp [startInterview, sessionState, resetSession, hq]
  · intro s
    rfl
  · intro s a f hq ha hf
    unfold submitAnswer
    rw [if_pos hq, if_pos ha, hf]
  · intro t h
    have h1 : (pySplit "\n" t).filter (containsTok scoreTok) = [] :=
      List.filter_eq_nil_iff.mpr (by intro a ha; simp [(h a ha).1])
    have h2 : (pySplit "\n" t).filter (containsTok commentTok) = [] :=
      List.filter_eq_nil_iff.mpr (by intro a ha; simp [(h a ha).2])
    simp [parseEvaluation, h1, h2]

/-- Witness for C5 on concrete failing calls and unparseable responses. -/
theorem C5_error_containment_amended_witness :
    (startInterview ⟨["p"], ["q"], [⟨2, "x"⟩], 1⟩
        (Except.ok "The model refused.")).1.questions = [] ∧
    (startInterview ⟨["p"], ["q"], [⟨2, "x"⟩], 1⟩ (Except.error ())).2 = some () ∧
    submitAnswer ⟨["Q"], [], [], 0⟩ "ans" (fun _ _ => Except.error ())
      = ⟨⟨["Q"], [], [], 0⟩, false, some ()⟩ ∧
    parseEvaluation "total garbage" = ⟨0, ""⟩ :=
  ⟨(C5_error_containment_amended.1 _ "The model refused." (by decide)).1,
   C5_error_containment_amended.2.1 _,
   C5_error_containment_amended.2.2.1 _ _ _ (by decide) (by decide) rfl,
   C5_error_containment_amended.2.2.2 "total garbage" (by decide)⟩

/-- C8: Persisted transcript format — the saved document carries exactly the
five top-level keys `field`, `tone`, `questions`, `answers`, `evaluations`
(the fields of `SaveDoc`), populated from the session with the three arrays
aligned index-by-index (equal lengths at the completed state under the
session invariant), and the file name is `interview_<field>.json` with each
space of `field` replaced by an underscore. -/
theorem C8_save_format (field tone : String) (s : Session)
    (hinv : s.invariant) (hdone : sessionState s = SessState.completed) :
    (saveInterview field tone s).1
      = ⟨field, tone, s.questions, s.answers, s.evaluations⟩ ∧
    ((saveInterview field tone s).1).answers.length
      = ((saveInterview field tone s).1).questions.length ∧
    ((saveInterview field tone s).1).evaluations.length
      = ((saveInterview field tone s).1).questions.length ∧
    ((saveInterview field tone s).2).toList
      = ("interview_" : String).toList ++ underscoreSpaces field.toList
          ++ (".json" : String).toList := by
  obtain ⟨h1, h2, h3⟩ := hinv
  have hq : ¬ s.current_q < s.questions.length := by
    unfold sessionState at hdone
    by_cases h : s.current_q < s.questions.length
    · rw [if_pos h] at hdone
      cases hdone
    · exact h
  refine ⟨rfl, ?_, ?_, ?_⟩
  · show s.answers.length = s.questions.length
    omega
  · show s.evaluations.length = s.questions.length
    omega
  · show (saveFilename field).toList = _
    unfold saveFilename
    rw [toList_append, toList_append]
    rfl

/-- Witness for C8 at a completed one-question session. -/
theorem C8_save_format_witness :
    (saveInterview "Data Science" "friendly" ⟨["Q"], ["a"], [⟨7, "ok"⟩], 1⟩).1
      = ⟨"Data Science", "friendly", ["Q"], ["a"], [⟨7, "ok"⟩]⟩ ∧
    ((saveInterview "Data Science" "friendly" ⟨["Q"], ["a"], [⟨7, "ok"⟩], 1⟩).2).toList
      = ("interview_" : String).toList
          ++ underscoreSpaces ("Data Science" : String).toList
          ++ (".json" : String).toList :=
  ⟨(C8_save_format "Data Science" "friendly" _ (by decide) (by decide)).1,
   (C8_save_format "Data Science" "friendly" _ (by decide) (by decide)).2.2.2⟩

end InterviewApp
